import Mathlib

/-!
Verification development for the ULVA Auto-MTO estimator
(src/ulva_auto_mto_extractor.py).

The Python source is shallowly embedded below.  Text is a list of
characters; the two regex-driven scanners (the cut-list scan driven by
cut_rx and the per-line fitting scan of parse_fittings) are translated
into executable character-list scanners with the exact semantics of the
regexes used in the source (re.findall / re.search of the patterns
given there, including greedy matching and backtracking behaviour).
Python floats are idealised as real numbers; math.ceil becomes Int.ceil
and round becomes a round-half-to-even operation on reals.
Lines that the source would crash on (AttributeError from
re.search(...).group(1) when the search fails) are modelled by the
Except monad: classifying such a line returns Except.error ().
-/

/-- ASCII decimal digit test, the semantics of the regex class \d. -/
def isDigitC (c : Char) : Bool := 48 ≤ c.toNat && c.toNat ≤ 57

/-- Python regex whitespace \s over ASCII: space, tab, newline,
carriage return, vertical tab, form feed. -/
def isSpaceC (c : Char) : Bool :=
  c.toNat = 32 || c.toNat = 9 || c.toNat = 10 || c.toNat = 13 ||
  c.toNat = 11 || c.toNat = 12

/-- Numeric value of a digit character. -/
def digitVal (c : Char) : ℕ := c.toNat - 48

/-- Value of a digit string, the semantics of Python int() on a run of
digits. -/
def toNatDigits (l : List Char) : ℕ :=
  l.foldl (fun a c => 10 * a + digitVal c) 0

/-- ASCII lowercasing of one character, the semantics of str.lower()
on the ASCII drawing text handled by the program. -/
def lowerChar (c : Char) : Char :=
  if 65 ≤ c.toNat ∧ c.toNat ≤ 90 then Char.ofNat (c.toNat + 32) else c

/-- str.lower() on a line. -/
def lowerStr (l : List Char) : List Char := l.map lowerChar

/-- Bool test that the first list is a prefix of the second. -/
def isPrefixL : List Char → List Char → Bool
  | [], _ => true
  | _ :: _, [] => false
  | a :: t1, b :: t2 => a = b && isPrefixL t1 t2

/-- Bool substring test, the semantics of the Python expression
(pat in s). -/
def containsSub (pat : List Char) : List Char → Bool
  | [] => isPrefixL pat []
  | c :: t => isPrefixL pat (c :: t) || containsSub pat t

/-- First match of the regex (\d{2,3}) in a line, converted by int():
the semantics of re.search in parse_fittings.  Scanning left to right,
the first position carrying at least two consecutive digits matches,
and the match greedily takes up to three digits. -/
def firstNum : List Char → Option ℕ
  | [] => none
  | c :: t =>
    let run := List.takeWhile isDigitC (c :: t)
    if 2 ≤ run.length then some (toNatDigits (run.take 3))
    else firstNum t

/-- Fuelled worker for allNums; fuel at least the list length makes it
total.  Successive non-overlapping matches of (\d{2,3}), each greedy. -/
def allNumsGo : ℕ → List Char → List ℕ
  | 0, _ => []
  | _ + 1, [] => []
  | f + 1, c :: t =>
    let run := List.takeWhile isDigitC (c :: t)
    if 2 ≤ run.length then
      toNatDigits (run.take 3) ::
        allNumsGo f (List.drop (run.take 3).length (c :: t))
    else allNumsGo f t

/-- All matches of (\d{2,3}) in a line, converted by int(): the
semantics of re.findall in the tee branch of parse_fittings. -/
def allNums (l : List Char) : List ℕ := allNumsGo l.length l

/-- Split a text into lines at newline characters: the semantics of
str.splitlines() on the newline-joined page text built in process_pdf
(no trailing empty line, empty text gives no lines). -/
def splitLinesGo (cur : List Char) : List Char → List (List Char)
  | [] => if cur.isEmpty then [] else [cur.reverse]
  | c :: t =>
    if c = Char.ofNat 10 then cur.reverse :: splitLinesGo [] t
    else splitLinesGo (c :: cur) t

/-- str.splitlines() for newline-separated text. -/
def splitLines (l : List Char) : List (List Char) := splitLinesGo [] l

/-- Cue substrings tested by parse_fittings, in source order. -/
def s45 : List Char := ("45").toList

def s90 : List Char := ("90").toList

def selbow : List Char := ("elbow").toList

def steeCue : List Char := (" tee").toList

def sflange : List Char := ("flange").toList

def svalve : List Char := ("valve").toList

def sweldolet : List Char := ("weldolet").toList

def sthreadolet : List Char := ("threadolet").toList

def sclamp : List Char := ("clamp").toList

/-- DN threshold below which weldolet/threadolet lines yield a collar
(DN_COLLAR in the source). -/
def DN_COLLAR : ℕ := 250

/-- Component descriptors produced by the two scans of process_pdf:
straight runs from the cut-list scan, and the fitting kinds appended by
parse_fittings.  The source tags tees as EqualTee exactly when the two
extracted numbers coincide; both tags are processed identically, so a
single constructor carries the pair. -/
inductive Item where
  | straight (length_mm dn : ℕ)
  | elbow (angle dn : ℕ)
  | tee (hdr br : ℕ)
  | endcap (dn : ℕ)
  | collar (dn : ℕ)
  | clamp (dn : ℕ)
deriving DecidableEq

/-- Classification of one text line by parse_fittings.  Cue tests are
substring tests on the lowercased line, in the elif order of the
source; numbers are extracted from the original line.  Branches that
call re.search(...).group(1) raise AttributeError in the source when
the search fails; this is the Except.error () outcome. -/
def classifyLine (ln : List Char) : Except Unit (Option Item) :=
  let l := lowerStr ln
  if containsSub s45 l && containsSub selbow l then
    match firstNum ln with
    | some dn => Except.ok (some (Item.elbow 45 dn))
    | none => Except.error ()
  else if containsSub s90 l && containsSub selbow l then
    match firstNum ln with
    | some dn => Except.ok (some (Item.elbow 90 dn))
    | none => Except.error ()
  else if containsSub steeCue l then
    Except.ok (match allNums ln with
      | a :: b :: _ => some (Item.tee a b)
      | _ => none)
  else if containsSub sflange l || containsSub svalve l then
    match firstNum ln with
    | some dn => Except.ok (some (Item.endcap dn))
    | none => Except.error ()
  else if containsSub sweldolet l || containsSub sthreadolet l then
    match firstNum ln with
    | some dn =>
        Except.ok (if dn < DN_COLLAR then some (Item.collar dn) else none)
    | none => Except.error ()
  else if containsSub sclamp l then
    match firstNum ln with
    | some dn => Except.ok (some (Item.clamp dn))
    | none => Except.error ()
  else Except.ok none

/-- Worker of parse_fittings: classify each line in order; the first
line whose classification raises aborts the whole document, as the
uncaught AttributeError does in the source. -/
def parseFittingsGo : List (List Char) → Except Unit (List Item)
  | [] => Except.ok []
  | ln :: rest => do
    let o ← classifyLine ln
    let r ← parseFittingsGo rest
    Except.ok (o.toList ++ r)

/-- parse_fittings of the source. -/
def parse_fittings (txt : List Char) : Except Unit (List Item) :=
  parseFittingsGo (splitLines txt)

/-- One attempted match of cut_rx = <\d+>\s+(\d{2,5})\s+(\d{2,3}) at
the head of the text.  Greedy matching with backtracking collapses to:
the index is a whole digit run closed by a literal >, the length group
must be a whole digit run of 2 to 5 digits (a longer run cannot be
followed by the required whitespace), and the DN group greedily takes
the first two or three digits of a run of at least two, with no
trailing constraint.  Returns the two int() groups and the unconsumed
rest of the text. -/
def cutMatchAt (l : List Char) : Option ((ℕ × ℕ) × List Char) :=
  match l with
  | [] => none
  | c :: t =>
    if c = ('<' : Char) then
      let d0 := List.takeWhile isDigitC t
      if 1 ≤ d0.length then
        match List.drop d0.length t with
        | c2 :: u =>
          if c2 = ('>' : Char) then
            let w1 := List.takeWhile isSpaceC u
            if 1 ≤ w1.length then
              let v := List.drop w1.length u
              let lrun := List.takeWhile isDigitC v
              if 2 ≤ lrun.length ∧ lrun.length ≤ 5 then
                let x := List.drop lrun.length v
                let w2 := List.takeWhile isSpaceC x
                if 1 ≤ w2.length then
                  let y := List.drop w2.length x
                  let drun := List.takeWhile isDigitC y
                  if 2 ≤ drun.length then
                    some ((toNatDigits lrun, toNatDigits (drun.take 3)),
                      List.drop (drun.take 3).length y)
                  else none
                else none
              else none
            else none
          else none
        | [] => none
      else none
    else none

/-- Fuelled worker for parse_cuts: scan the text left to right; on a
match continue after it (non-overlapping matches, as re.findall), on a
failure advance one character. -/
def parseCutsGo : ℕ → List Char → List (ℕ × ℕ)
  | 0, _ => []
  | _ + 1, [] => []
  | f + 1, c :: t =>
    match cutMatchAt (c :: t) with
    | some (g, rest) => g :: parseCutsGo f rest
    | none => parseCutsGo f t

/-- parse_cuts of the source: all (length_mm, dn) pairs found by
cut_rx.findall over the whole document text. -/
def parse_cuts (l : List Char) : List (ℕ × ℕ) := parseCutsGo l.length l

/-- Straight-run descriptors built from the cut-list scan, in order. -/
def straightsOf (txt : List Char) : List Item :=
  (parse_cuts txt).map (fun p => Item.straight p.1 p.2)

/-- All component descriptors of one document in processing order of
process_pdf: straights first, then fittings; a fitting-scan crash
discards the whole document. -/
def parsedItems (txt : List Char) : Except Unit (List Item) :=
  (parse_fittings txt).map (fun fits => straightsOf txt ++ fits)

/-- Longitudinal lap allowance LAP of the source (0.05 m). -/
noncomputable def LAP : ℝ := 0.05

/-- Metres of bead covered per ULVASeal tube (TUBE_COVER_M). -/
noncomputable def TUBE_COVER_M : ℝ := 6

/-- Bonding strip width BOND_STRIP_W of the source (0.1 m). -/
noncomputable def BOND_STRIP_W : ℝ := 0.1

/-- OD lookup with fallback, the semantics of OD.get(dn, dn):
tabulated outer diameter in millimetres, or the DN itself when the DN
is not a key of the table. -/
def OD_get (dn : ℕ) : ℚ :=
  match dn with
  | 15 => 21.3
  | 20 => 26.9
  | 25 => 33.7
  | 32 => 42.4
  | 40 => 48.3
  | 50 => 60.3
  | 65 => 76.1
  | 80 => 88.9
  | 90 => 101.6
  | 100 => 114.3
  | 125 => 141.3
  | 150 => 168.3
  | 200 => 219.1
  | 250 => 273.0
  | 300 => 323.9
  | 350 => 355.6
  | 400 => 406.4
  | 450 => 457.0
  | 500 => 508.0
  | 600 => 610.0
  | _ => dn

/-- Insulated outer diameter OD.get(dn, dn) + 2 * INS_THK in
millimetres; thk is the CLI-supplied insulation thickness INS_THK. -/
def insOD (thk dn : ℕ) : ℚ := OD_get dn + 2 * thk

/-- circ_m of the source: insulated circumference in metres,
pi * od / 1000. -/
noncomputable def circ_m (thk dn : ℕ) : ℝ :=
  Real.pi * ((insOD thk dn : ℚ) : ℝ) / 1000

/-- The arc expression of the elbow branch of process_pdf:
(angle/360) * 2 * pi * (OD.get(dn,dn) + 2*INS_THK) / 1000. -/
noncomputable def elbowArc (thk angle dn : ℕ) : ℝ :=
  ((angle : ℝ) / 360) * 2 * Real.pi * ((insOD thk dn : ℚ) : ℝ) / 1000

/-- Per-component additions made by process_pdf to its three running
accumulators, as the triple (total_clad, bond_len, bead_sum).
Straight runs first round the millimetre length up to whole metres,
L = ceil(Lmm / 1000), computed in ℕ as (Lmm + 999) / 1000. -/
noncomputable def contrib (thk : ℕ) : Item → ℝ × ℝ × ℝ
  | Item.straight lmm dn =>
    let L : ℕ := (lmm + 999) / 1000
    ((circ_m thk dn + LAP) * L, (L : ℝ) + circ_m thk dn,
      (L : ℝ) + 2 * circ_m thk dn)
  | Item.elbow angle dn =>
    (0, 2 * elbowArc thk angle dn, elbowArc thk angle dn)
  | Item.tee hdr br =>
    (0, 2 * circ_m thk hdr + circ_m thk br,
      2 * circ_m thk hdr + circ_m thk br)
  | Item.endcap dn => (0, circ_m thk dn, circ_m thk dn)
  | Item.collar dn => (0, circ_m thk dn, circ_m thk dn)
  | Item.clamp _ => (0, 0, 0)

/-- The accumulator loop of process_pdf over a document's descriptors:
starting from zero, add each component's contribution in order. -/
noncomputable def docTotals (thk : ℕ) (items : List Item) : ℝ × ℝ × ℝ :=
  items.foldl (fun a it => a + contrib thk it) 0

/-- Python round(x, 2) idealised on reals: round half to even at two
decimal places. -/
noncomputable def pyRound2 (x : ℝ) : ℝ :=
  let n : ℤ := ⌊x * 100⌋
  if x * 100 - n < 1 / 2 then (n : ℝ) / 100
  else if 1 / 2 < x * 100 - n then ((n : ℝ) + 1) / 100
  else if Even n then (n : ℝ) / 100 else ((n : ℝ) + 1) / 100

/-- The summary dict built at the end of process_pdf and summed over
documents by main: these four fields are its complete contents. -/
structure Summary where
  Clad_m2 : ℝ
  Bead_m : ℝ
  Tubes : ℤ
  Bond_tins : ℤ

/-- Keywise sum of two summaries, the semantics of the accumulation
loop for all_sum in main. -/
def Summary.add (a b : Summary) : Summary :=
  ⟨a.Clad_m2 + b.Clad_m2, a.Bead_m + b.Bead_m, a.Tubes + b.Tubes,
    a.Bond_tins + b.Bond_tins⟩

/-- The summary of one document, from the final accumulator triple:
tubes = ceil(total_bead / 6) and tins = ceil(bond_len * 0.1 / 2), with
the two real totals display-rounded to two decimals. -/
noncomputable def mkSummary (t : ℝ × ℝ × ℝ) : Summary :=
  ⟨pyRound2 t.1, pyRound2 t.2.2, ⌈t.2.2 / TUBE_COVER_M⌉,
    ⌈t.2.1 * BOND_STRIP_W / 2⌉⟩

/-- process_pdf of the source, restricted to its summary output:
parse both scans, fold the contributions, and summarise.  A document
whose fitting scan raises yields no summary. -/
noncomputable def process_pdf (thk : ℕ) (txt : List Char) :
    Except Unit Summary :=
  (parsedItems txt).map (fun its => mkSummary (docTotals thk its))

/-- The per-document loop of main, with the running all_sum
accumulator: process each document in order and add its summary. -/
noncomputable def runSummaryGo (thk : ℕ) (acc : Summary) :
    List (List Char) → Except Unit Summary
  | [] => Except.ok acc
  | t :: ts => do
    let s ← process_pdf thk t
    runSummaryGo thk (acc.add s) ts

/-- The run summary of main over a list of document texts, starting
from the zero accumulator. -/
noncomputable def run_summary (thk : ℕ) (texts : List (List Char)) :
    Except Unit Summary :=
  runSummaryGo thk ⟨0, 0, 0, 0⟩ texts

/-- The exact bead length accumulated by process_pdf for one document
(zero for a document whose fitting scan raises). -/
noncomputable def docBead (thk : ℕ) (txt : List Char) : ℝ :=
  match parsedItems txt with
  | Except.ok its => (docTotals thk its).2.2
  | Except.error _ => 0

/-- The exact bead length accumulated over every document of a run. -/
noncomputable def runBeadSum (thk : ℕ) (texts : List (List Char)) : ℝ :=
  (texts.map (docBead thk)).sum

/-- Totals of a whole run as the componentwise sum of per-document
accumulator triples (total cladding area, total bond length, total
bead length over exact arithmetic). -/
noncomputable def runTotals (thk : ℕ) (docs : List (List Item)) :
    ℝ × ℝ × ℝ :=
  (docs.map (docTotals thk)).sum

/-- A two-straight-document used as a concrete run input. -/
def cutDoc : List Char := ("<1> 1000 15").toList

/-- Claim C3 evaluation: a line whose cue is clamp but which carries no
two-digit number makes parse_fittings fail (the AttributeError of the
source), the whole document is lost, and later valid lines are not
processed. -/
theorem C3_eval :
    parse_fittings (("clamp").toList) = Except.error () ∧
    parse_fittings (("clamp\nelbow 90 50").toList) = Except.error () ∧
    parsedItems (("clamp").toList) = Except.error () :=
  ⟨rfl, rfl, rfl⟩

/-- Claim C4 evaluation: the complete summary record of a document
holding one clamp-cover line has only the four count/total fields of
the source dict, all zero here; no cost field exists. -/
theorem C4_eval :
    process_pdf 20 (("clamp 50").toList) = Except.ok ⟨0, 0, 0, 0⟩ := by
  have h : parsedItems (("clamp 50").toList) = Except.ok [Item.clamp 50] := rfl
  unfold process_pdf
  rw [h]
  simp [Except.map, docTotals, contrib, mkSummary, pyRound2,
    TUBE_COVER_M, BOND_STRIP_W, Summary.mk.injEq]

/-- Claim C5 counterexample: a line containing the tee cue and exactly
one 2-3-digit number yields no descriptor at all, not an equal tee. -/
theorem C5_counterexample :
    parse_fittings (("branch tee 50").toList) = Except.ok [] ∧
    (Except.ok ([] : List Item) : Except Unit (List Item)) ≠
      Except.ok [Item.tee 50 50] := by
  refine ⟨rfl, ?_⟩
  simp

/-- Claim C5 amended: on a line whose lowercased text contains the
cue string of a tee preceded by a space and matches no elbow cue, the
classifier emits Tee(first, second) when at least two 2-3-digit
numbers occur, and nothing at all when fewer than two occur. -/
theorem C5_amended (ln : List Char)
    (h45 : (containsSub s45 (lowerStr ln) &&
      containsSub selbow (lowerStr ln)) = false)
    (h90 : (containsSub s90 (lowerStr ln) &&
      containsSub selbow (lowerStr ln)) = false)
    (htee : containsSub steeCue (lowerStr ln) = true) :
    classifyLine ln = Except.ok (match allNums ln with
      | a :: b :: _ => some (Item.tee a b)
      | _ => none) := by
  simp only [classifyLine, h45, h90, htee, Bool.false_eq_true, if_false,
    if_true]

set_option maxRecDepth 8000 in
/-- Claim C5 witness at a concrete two-number tee line. -/
theorem C5_witness :
    classifyLine (("pipe tee 80 50").toList) =
      Except.ok (some (Item.tee 80 50)) := by
  have h := C5_amended (("pipe tee 80 50").toList) (by decide) (by decide)
    (by decide)
  simpa using h

set_option maxRecDepth 8000 in
/-- Claim C6 counterexample: a reducer line with two numbers yields no
descriptor and hence contributes nothing, while the claimed bead
contribution circumference(80) + circumference(50) is positive. -/
theorem C6_counterexample :
    parsedItems (("reducer 80 50").toList) = Except.ok [] ∧
    docTotals 20 [] = 0 ∧
    0 < circ_m 20 80 + circ_m 20 50 := by
  refine ⟨rfl, rfl, ?_⟩
  have hp := Real.pi_pos
  simp only [circ_m, insOD, OD_get]
  push_cast
  nlinarith

/-- Claim C6 amended: the classifier of the source has no reducer
rule; a line matching none of the cue tests (in particular a plain
reducer line) yields no descriptor. -/
theorem C6_amended (ln : List Char)
    (h45 : containsSub s45 (lowerStr ln) = false)
    (h90 : containsSub s90 (lowerStr ln) = false)
    (htee : containsSub steeCue (lowerStr ln) = false)
    (hfl : containsSub sflange (lowerStr ln) = false)
    (hva : containsSub svalve (lowerStr ln) = false)
    (hwe : containsSub sweldolet (lowerStr ln) = false)
    (hth : containsSub sthreadolet (lowerStr ln) = false)
    (hcl : containsSub sclamp (lowerStr ln) = false) :
    classifyLine ln = Except.ok none := by
  simp [classifyLine, h45, h90, htee, hfl, hva, hwe, hth, hcl]

set_option maxRecDepth 8000 in
/-- Claim C6 witness at the concrete reducer line. -/
theorem C6_witness :
    classifyLine (("reducer 80 50").toList) = Except.ok none :=
  C6_amended (("reducer 80 50").toList) (by decide) (by decide) (by decide)
    (by decide) (by decide) (by decide) (by decide) (by decide)

/-- Claim C7 counterexample: a line containing elbow, 45 and 90 is
classified as a 45 degree elbow, not a 90 degree one. -/
theorem C7_counterexample :
    parse_fittings (("elbow 45 90").toList) =
      Except.ok [Item.elbow 45 45] ∧
    (Except.ok [Item.elbow 45 45] : Except Unit (List Item)) ≠
      Except.ok [Item.elbow 90 45] := by
  refine ⟨rfl, ?_⟩
  simp

/-- Claim C7 amended: for a line containing the elbow cue and 45 or
90, the angle is 45 whenever the digits 45 occur anywhere in the line
(45 has precedence), 90 otherwise, and the DN is the first 2-3-digit
number of the line. -/
theorem C7_amended (ln : List Char) (d : ℕ)
    (helbow : containsSub selbow (lowerStr ln) = true)
    (h4590 : containsSub s45 (lowerStr ln) = true ∨
      containsSub s90 (lowerStr ln) = true)
    (hd : firstNum ln = some d) :
    classifyLine ln = Except.ok (some (Item.elbow
      (if containsSub s45 (lowerStr ln) then 45 else 90) d)) := by
  cases h : containsSub s45 (lowerStr ln) with
  | false =>
    have h90 : containsSub s90 (lowerStr ln) = true := by
      rcases h4590 with h45 | h90
      · rw [h] at h45; exact absurd h45 (by simp)
      · exact h90
    simp [classifyLine, h, helbow, h90, hd]
  | true =>
    simp [classifyLine, h, helbow, hd]

set_option maxRecDepth 8000 in
/-- Claim C7 witness at a concrete 90 degree elbow line. -/
theorem C7_witness :
    classifyLine (("pipe elbow 90").toList) =
      Except.ok (some (Item.elbow 90 90)) := by
  have h := C7_amended (("pipe elbow 90").toList) 90 (by decide)
    (Or.inr (by decide)) (by decide)
  simpa using h

/-- Claim C2 counterexample: the bead length process_pdf adds for a
90 degree DN-50 elbow at 20 mm thickness is the arc expression taken
once, not twice the arc expression of the claim. -/
theorem C2_counterexample :
    (contrib 20 (Item.elbow 90 50)).2.2 ≠
      2 * (((90 : ℝ) / 360) * 2 * Real.pi *
        ((insOD 20 50 : ℚ) : ℝ) / 1000) := by
  have he : (contrib 20 (Item.elbow 90 50)).2.2 = elbowArc 20 90 50 := rfl
  have harc : (0 : ℝ) < elbowArc 20 90 50 := by
    simp only [elbowArc, insOD, OD_get]
    push_cast
    nlinarith [Real.pi_pos]
  rw [he]
  have h2 : 2 * (((90 : ℝ) / 360) * 2 * Real.pi *
      ((insOD 20 50 : ℚ) : ℝ) / 1000) = 2 * elbowArc 20 90 50 := by
    norm_num [elbowArc]
  rw [h2]
  intro h
  nlinarith

/-- Claim C2 amended: every elbow adds the arc expression
(angle/360) * 2 pi * insulated_od / 1000 once to the bead total (and
twice to the bond total); numerically this arc is already the
heel-plus-throat bead, about 0.1576 m for a 90 degree DN-50 elbow at
20 mm thickness. -/
theorem C2_amended :
    (∀ thk angle dn : ℕ, contrib thk (Item.elbow angle dn) =
      (0, 2 * elbowArc thk angle dn, elbowArc thk angle dn)) ∧
    0.157 < elbowArc 20 90 50 ∧ elbowArc 20 90 50 < 0.158 := by
  refine ⟨fun thk angle dn => rfl, ?_, ?_⟩ <;>
  · simp only [elbowArc, insOD, OD_get]
    push_cast
    nlinarith [Real.pi_gt_d6, Real.pi_lt_d6]

/-- Ceiling division by 1000 in ℕ agrees with the real ceiling of the
millimetre length over 1000 used by process_pdf. -/
theorem natCeilDiv1000 (m : ℕ) :
    (((m + 999) / 1000 : ℕ) : ℤ) = ⌈(m : ℝ) / 1000⌉ := by
  rw [eq_comm, Int.ceil_eq_iff]
  have h3 : ((m + 999) / 1000) * 1000 < m + 1000 := by omega
  have h2 : m ≤ ((m + 999) / 1000) * 1000 := by omega
  constructor
  · rw [lt_div_iff₀ (by norm_num : (0 : ℝ) < 1000)]
    have h4 : ((((m + 999) / 1000 : ℕ) : ℝ)) * 1000 < (m : ℝ) + 1000 := by
      exact_mod_cast h3
    simp only [Int.cast_natCast]
    linarith
  · rw [div_le_iff₀ (by norm_num : (0 : ℝ) < 1000)]
    exact_mod_cast h2

/-- Claim C8: a straight run of length_mm millimetres is rounded up
once to L whole metres (the ℕ computation agrees with the real
ceiling), its cladding area is (circumference + lap) * L and its bead
length is L + 2 * circumference; at DN 100, 3250 mm, 20 mm thickness
this gives L = 4, area about 2.139 and bead about 4.970. -/
theorem C8_thm :
    (∀ thk lmm dn : ℕ,
      (((lmm + 999) / 1000 : ℕ) : ℤ) = ⌈(lmm : ℝ) / 1000⌉ ∧
      contrib thk (Item.straight lmm dn) =
        ((circ_m thk dn + LAP) * (((lmm + 999) / 1000 : ℕ) : ℝ),
         (((lmm + 999) / 1000 : ℕ) : ℝ) + circ_m thk dn,
         (((lmm + 999) / 1000 : ℕ) : ℝ) + 2 * circ_m thk dn)) ∧
    ((3250 + 999) / 1000 : ℕ) = 4 ∧
    |(contrib 20 (Item.straight 3250 100)).1 - 2.139| < 1 / 1000 ∧
    |(contrib 20 (Item.straight 3250 100)).2.2 - 4.97| < 1 / 1000 := by
  refine ⟨fun thk lmm dn => ⟨natCeilDiv1000 lmm, rfl⟩, by norm_num, ?_, ?_⟩ <;>
  · simp only [contrib, circ_m, insOD, OD_get, LAP]
    push_cast
    norm_num
    rw [abs_lt]
    constructor <;> nlinarith [Real.pi_gt_d6, Real.pi_lt_d6]

/-- Folding the contribution accumulator from any start equals the
start plus the sum of the per-component contributions. -/
theorem docTotals_key (thk : ℕ) (l : List Item) :
    ∀ z : ℝ × ℝ × ℝ,
      l.foldl (fun a it => a + contrib thk it) z =
        z + (l.map (contrib thk)).sum := by
  induction l with
  | nil => intro z; simp
  | cons h t ih => intro z; simp [ih, add_assoc]

/-- Claim C9: the accumulation of process_pdf is the commutative sum
of per-component contributions, so permuting the descriptors of a
document, or the documents of a run, leaves the exact totals (cladding
area, bond length, bead length) unchanged. -/
theorem C9_thm (thk : ℕ) :
    (∀ l : List Item, docTotals thk l = (l.map (contrib thk)).sum) ∧
    (∀ l₁ l₂ : List Item, l₁.Perm l₂ →
      docTotals thk l₁ = docTotals thk l₂) ∧
    (∀ ds₁ ds₂ : List (List Item), ds₁.Perm ds₂ →
      runTotals thk ds₁ = runTotals thk ds₂) := by
  have key : ∀ l : List Item, docTotals thk l = (l.map (contrib thk)).sum :=
    fun l => by simpa [docTotals] using docTotals_key thk l 0
  refine ⟨key, fun l₁ l₂ hp => ?_, fun ds₁ ds₂ hp => ?_⟩
  · rw [key, key]
    exact (hp.map (contrib thk)).sum_eq
  · exact (hp.map (docTotals thk)).sum_eq

/-- Claim C9 witness: a concrete transposition of a document's two
descriptors, with the permutation hypothesis discharged by decide. -/
theorem C9_witness :
    docTotals 20 [Item.straight 1000 15, Item.clamp 50] =
      docTotals 20 [Item.clamp 50, Item.straight 1000 15] :=
  (C9_thm 20).2.1 [Item.straight 1000 15, Item.clamp 50]
    [Item.clamp 50, Item.straight 1000 15] (by decide)

/-- A successful document summary records as its tube count the
ceiling of that document's exact bead length over the tube coverage. -/
theorem process_pdf_tubes (thk : ℕ) (t : List Char) (s : Summary)
    (h : process_pdf thk t = Except.ok s) :
    s.Tubes = ⌈docBead thk t / TUBE_COVER_M⌉ := by
  cases hq : parsedItems t with
  | error e =>
    rw [process_pdf, hq] at h
    simp [Except.map] at h
  | ok its =>
    rw [process_pdf, hq] at h
    simp only [Except.map, Except.ok.injEq] at h
    rw [← h]
    simp [mkSummary, docBead, hq]

/-- The run loop of main adds one per-document tube ceiling per
document to the accumulator. -/
theorem runGo_tubes (thk : ℕ) :
    ∀ (ts : List (List Char)) (acc s : Summary),
      runSummaryGo thk acc ts = Except.ok s →
      s.Tubes = acc.Tubes +
        (ts.map (fun t => ⌈docBead thk t / TUBE_COVER_M⌉)).sum := by
  intro ts
  induction ts with
  | nil =>
    intro acc s h
    simp only [runSummaryGo, Except.ok.injEq] at h
    simp [← h]
  | cons t ts ih =>
    intro acc s h
    simp only [runSummaryGo] at h
    cases hp : process_pdf thk t with
    | error e =>
      rw [hp] at h
      simp [Bind.bind, Except.bind] at h
    | ok s₁ =>
      rw [hp] at h
      simp only [Bind.bind, Except.bind] at h
      have hrec := ih (acc.add s₁) s h
      have ht := process_pdf_tubes thk t s₁ hp
      simp only [Summary.add] at hrec
      rw [hrec, ht]
      simp [add_assoc]

/-- Per-real-number form of the tube bound: six times the ceiling of
a sixth dominates the number. -/
theorem le_ceil_mul (b : ℝ) :
    b ≤ (⌈b / TUBE_COVER_M⌉ : ℝ) * TUBE_COVER_M := by
  have h := Int.le_ceil (b / TUBE_COVER_M)
  rw [div_le_iff₀ (by norm_num [TUBE_COVER_M] : (0 : ℝ) < TUBE_COVER_M)] at h
  exact h

/-- Sum form of the tube bound over the documents of a run. -/
theorem runBeadSum_le (thk : ℕ) (texts : List (List Char)) :
    runBeadSum thk texts ≤
      (((texts.map (fun t => ⌈docBead thk t / TUBE_COVER_M⌉)).sum : ℤ) : ℝ) *
        TUBE_COVER_M := by
  induction texts with
  | nil => simp [runBeadSum]
  | cons t ts ih =>
    have hb := le_ceil_mul (docBead thk t)
    simp only [runBeadSum, List.map_cons, List.sum_cons] at ih ⊢
    push_cast
    push_cast at ih
    nlinarith [hb]

/-- Claim C1 amended: the run's sealant tube count is the sum over
documents of ceil(document bead / 6), not the ceiling of the run
total; six times the tube count still dominates the total bead length
of the run, and the strict lower bound holds per document. -/
theorem C1_amended (thk : ℕ) (texts : List (List Char)) (s : Summary)
    (h : run_summary thk texts = Except.ok s) :
    s.Tubes = (texts.map (fun t => ⌈docBead thk t / TUBE_COVER_M⌉)).sum ∧
    runBeadSum thk texts ≤ (s.Tubes : ℝ) * TUBE_COVER_M ∧
    ∀ t ∈ texts,
      ((⌈docBead thk t / TUBE_COVER_M⌉ : ℝ) - 1) * TUBE_COVER_M <
        docBead thk t := by
  have h1 := runGo_tubes thk texts ⟨0, 0, 0, 0⟩ s h
  simp only [zero_add] at h1
  refine ⟨h1, ?_, ?_⟩
  · rw [h1]
    exact runBeadSum_le thk texts
  · intro t _
    have hc := Int.ceil_lt_add_one (docBead thk t / TUBE_COVER_M)
    have h6 : (0 : ℝ) < TUBE_COVER_M := by norm_num [TUBE_COVER_M]
    have hb : docBead thk t / TUBE_COVER_M * TUBE_COVER_M = docBead thk t := by
      field_simp
    nlinarith [hc]


set_option maxRecDepth 8000 in
/-- Claim C1 counterexample: a run of two identical one-straight
documents gets 2 sealant tubes (one ceiling per document) although the
ceiling of the run's total bead length over 6 is 1, and the claimed
strict bound (tubes - 1) * 6 < total bead fails. -/
theorem C1_counterexample :
    Except.map Summary.Tubes (run_summary 20 [cutDoc, cutDoc]) =
      Except.ok 2 ∧
    ⌈runBeadSum 20 [cutDoc, cutDoc] / TUBE_COVER_M⌉ = 1 ∧
    ¬ (((2 : ℝ) - 1) * TUBE_COVER_M <
        runBeadSum 20 [cutDoc, cutDoc]) := by
  have hP : parsedItems cutDoc = Except.ok [Item.straight 1000 15] := rfl
  have hD : docTotals 20 [Item.straight 1000 15] =
      ((circ_m 20 15 + LAP) * 1, 1 + circ_m 20 15, 1 + 2 * circ_m 20 15) := by
    norm_num [docTotals, contrib]
  have hbead : docBead 20 cutDoc = 1 + 2 * circ_m 20 15 := by
    simp [docBead, hP, hD]
  have hC1 : 0.19 < circ_m 20 15 := by
    simp only [circ_m, insOD, OD_get]
    push_cast
    nlinarith [Real.pi_gt_d6]
  have hC2 : circ_m 20 15 < 0.2 := by
    simp only [circ_m, insOD, OD_get]
    push_cast
    nlinarith [Real.pi_lt_d6]
  have hmk : (mkSummary (docTotals 20 [Item.straight 1000 15])).Tubes = 1 := by
    rw [hD]
    simp only [mkSummary]
    rw [Int.ceil_eq_iff]
    constructor
    · push_cast
      norm_num [TUBE_COVER_M]
      positivity
    · push_cast
      rw [div_le_one (by norm_num [TUBE_COVER_M] : (0 : ℝ) < TUBE_COVER_M)]
      norm_num [TUBE_COVER_M]
      linarith
  have hrun : run_summary 20 [cutDoc, cutDoc] =
      Except.ok (Summary.add (Summary.add ⟨0, 0, 0, 0⟩
        (mkSummary (docTotals 20 [Item.straight 1000 15])))
        (mkSummary (docTotals 20 [Item.straight 1000 15]))) := rfl
  have hsum : runBeadSum 20 [cutDoc, cutDoc] =
      (1 + 2 * circ_m 20 15) + ((1 + 2 * circ_m 20 15) + 0) := by
    simp [runBeadSum, hbead]
  refine ⟨?_, ?_, ?_⟩
  · rw [hrun]
    simp [Except.map, Summary.add, hmk]
  · rw [hsum, Int.ceil_eq_iff]
    constructor
    · push_cast
      norm_num [TUBE_COVER_M]
      linarith
    · push_cast
      rw [div_le_one (by norm_num [TUBE_COVER_M] : (0 : ℝ) < TUBE_COVER_M)]
      norm_num [TUBE_COVER_M]
      linarith
  · rw [hsum]
    norm_num [TUBE_COVER_M]
    linarith

set_option maxRecDepth 8000 in
/-- Claim C1 witness: the amended statement applied to the concrete
one-document run, with the run-summary hypothesis discharged by rfl. -/
theorem C1_witness :
    (Summary.add ⟨0, 0, 0, 0⟩
        (mkSummary (docTotals 20 [Item.straight 1000 15]))).Tubes =
      ([cutDoc].map (fun t => ⌈docBead 20 t / TUBE_COVER_M⌉)).sum ∧
    runBeadSum 20 [cutDoc] ≤
      ((Summary.add ⟨0, 0, 0, 0⟩
        (mkSummary (docTotals 20 [Item.straight 1000 15]))).Tubes : ℝ) *
        TUBE_COVER_M ∧
    ∀ t ∈ [cutDoc],
      ((⌈docBead 20 t / TUBE_COVER_M⌉ : ℝ) - 1) * TUBE_COVER_M <
        docBead 20 t :=
  C1_amended 20 [cutDoc]
    (Summary.add ⟨0, 0, 0, 0⟩
      (mkSummary (docTotals 20 [Item.straight 1000 15]))) rfl

/-- A digit character is not regex whitespace. -/
theorem digit_not_space {c : Char} (h : isDigitC c = true) :
    isSpaceC c = false := by
  simp only [isDigitC, Bool.and_eq_true, decide_eq_true_eq] at h
  simp only [isSpaceC, Bool.or_eq_false_iff, decide_eq_false_iff_not]
  omega

/-- A regex whitespace character is not a digit. -/
theorem space_not_digit {c : Char} (h : isSpaceC c = true) :
    isDigitC c = false := by
  simp only [isSpaceC, Bool.or_eq_true, decide_eq_true_eq] at h
  simp only [isDigitC, Bool.and_eq_false_iff, decide_eq_false_iff_not]
  omega

/-- A digit character is not the opening angle bracket. -/
theorem digit_ne_lt {c : Char} (h : isDigitC c = true) : c ≠ '<' := by
  intro he
  subst he
  exact absurd h (by decide)

/-- A regex whitespace character is not the opening angle bracket. -/
theorem space_ne_lt {c : Char} (h : isSpaceC c = true) : c ≠ '<' := by
  intro he
  subst he
  exact absurd h (by decide)

/-- takeWhile of an all-satisfying list is the list itself. -/
theorem takeWhile_all {α : Type} {p : α → Bool} :
    ∀ {l : List α}, (∀ a ∈ l, p a = true) → List.takeWhile p l = l := by
  intro l
  induction l with
  | nil => intro _; rfl
  | cons a t ih =>
    intro h
    rw [List.takeWhile_cons, h a (by simp)]
    simp [ih fun b hb => h b (by simp [hb])]

/-- The cut-list scanner finds nothing in text free of the opening
angle bracket. -/
theorem parseCutsGo_no_lt :
    ∀ (f : ℕ) (l : List Char), (∀ c ∈ l, c ≠ '<') →
      parseCutsGo f l = [] := by
  intro f
  induction f with
  | zero => intro l _; rfl
  | succ f ih =>
    intro l h
    cases l with
    | nil => rfl
    | cons c t =>
      have hc : c ≠ '<' := h c (by simp)
      have hm : cutMatchAt (c :: t) = none := by
        simp [cutMatchAt, hc]
      simp only [parseCutsGo, hm]
      exact ih t fun x hx => h x (by simp [hx])

/-- Claim C10 amended: on a text of the exact shape index tag,
whitespace, length field, whitespace, DN field, the cut-list scan
emits one straight run exactly when the length field has 2 to 5
digits and the DN field at least 2 digits; the DN recorded is the
value of the first three digits of the DN field (so a 4-or-more-digit
DN field is truncated, not rejected), and any other field widths
produce nothing. -/
theorem C10_amended (idx w1 len w2 dn : List Char)
    (hidx : ∀ c ∈ idx, isDigitC c = true) (hidxne : idx ≠ [])
    (hw1 : ∀ c ∈ w1, isSpaceC c = true) (hw1ne : w1 ≠ [])
    (hlen : ∀ c ∈ len, isDigitC c = true) (hlenne : len ≠ [])
    (hw2 : ∀ c ∈ w2, isSpaceC c = true) (hw2ne : w2 ≠ [])
    (hdn : ∀ c ∈ dn, isDigitC c = true) (hdnne : dn ≠ []) :
    parse_cuts ('<' :: (idx ++ '>' :: (w1 ++ (len ++ (w2 ++ dn))))) =
      if 2 ≤ len.length ∧ len.length ≤ 5 ∧ 2 ≤ dn.length then
        [(toNatDigits len, toNatDigits (dn.take 3))]
      else [] := by
  obtain ⟨lc, lt, rfl⟩ := List.exists_cons_of_ne_nil hlenne
  obtain ⟨dc, dt, rfl⟩ := List.exists_cons_of_ne_nil hdnne
  obtain ⟨wc, wt, rfl⟩ := List.exists_cons_of_ne_nil hw2ne
  have hlc : isDigitC lc = true := hlen lc (by simp)
  have hdc : isDigitC dc = true := hdn dc (by simp)
  have hwc : isSpaceC wc = true := hw2 wc (by simp)
  have hidxlen : 1 ≤ idx.length := List.length_pos.mpr hidxne
  have hw1len : 1 ≤ w1.length := List.length_pos.mpr hw1ne
  have hw2len : 1 ≤ (wc :: wt).length := by simp
  have e1 : List.takeWhile isDigitC
      (idx ++ '>' :: (w1 ++ ((lc :: lt) ++ ((wc :: wt) ++ (dc :: dt))))) =
      idx := by
    rw [List.takeWhile_append_of_pos hidx]
    simp [List.takeWhile_cons, show isDigitC ('>' : Char) = false from by
      decide]
  have e2 : List.drop idx.length
      (idx ++ '>' :: (w1 ++ ((lc :: lt) ++ ((wc :: wt) ++ (dc :: dt))))) =
      '>' :: (w1 ++ ((lc :: lt) ++ ((wc :: wt) ++ (dc :: dt)))) :=
    List.drop_left idx _
  have e3 : List.takeWhile isSpaceC
      (w1 ++ ((lc :: lt) ++ ((wc :: wt) ++ (dc :: dt)))) = w1 := by
    rw [List.takeWhile_append_of_pos hw1]
    simp [List.takeWhile_cons, digit_not_space hlc]
  have e4 : List.drop w1.length
      (w1 ++ ((lc :: lt) ++ ((wc :: wt) ++ (dc :: dt)))) =
      (lc :: lt) ++ ((wc :: wt) ++ (dc :: dt)) :=
    List.drop_left w1 _
  have e5 : List.takeWhile isDigitC
      ((lc :: lt) ++ ((wc :: wt) ++ (dc :: dt))) = lc :: lt := by
    rw [List.takeWhile_append_of_pos hlen]
    simp [List.takeWhile_cons, space_not_digit hwc]
  have e6 : List.drop (lc :: lt).length
      ((lc :: lt) ++ ((wc :: wt) ++ (dc :: dt))) =
      (wc :: wt) ++ (dc :: dt) :=
    List.drop_left (lc :: lt) _
  have e7 : List.takeWhile isSpaceC ((wc :: wt) ++ (dc :: dt)) =
      wc :: wt := by
    rw [List.takeWhile_append_of_pos hw2]
    simp [List.takeWhile_cons, digit_not_space hdc]
  have e8 : List.drop (wc :: wt).length ((wc :: wt) ++ (dc :: dt)) =
      dc :: dt :=
    List.drop_left (wc :: wt) _
  have e9 : List.takeWhile isDigitC (dc :: dt) = dc :: dt :=
    takeWhile_all hdn
  have hrest : ∀ f : ℕ,
      parseCutsGo f (List.drop ((dc :: dt).take 3).length (dc :: dt)) =
        [] := fun f =>
    parseCutsGo_no_lt f _ fun c hc =>
      digit_ne_lt (hdn c (List.mem_of_mem_drop hc))
  have hT : ∀ c ∈ idx ++ '>' :: (w1 ++ ((lc :: lt) ++ ((wc :: wt) ++
      (dc :: dt)))), c ≠ '<' := by
    intro c hc
    rcases List.mem_append.mp hc with h | h
    · exact digit_ne_lt (hidx c h)
    rcases List.mem_cons.mp h with rfl | h
    · decide
    rcases List.mem_append.mp h with h | h
    · exact space_ne_lt (hw1 c h)
    rcases List.mem_append.mp h with h | h
    · exact digit_ne_lt (hlen c h)
    rcases List.mem_append.mp h with h | h
    · exact space_ne_lt (hw2 c h)
    · exact digit_ne_lt (hdn c h)
  by_cases hcond : 2 ≤ (lc :: lt).length ∧ (lc :: lt).length ≤ 5 ∧
      2 ≤ (dc :: dt).length
  · obtain ⟨hc1, hc2, hc3⟩ := hcond
    rw [if_pos ⟨hc1, hc2, hc3⟩]
    have hm : cutMatchAt ('<' :: (idx ++ '>' :: (w1 ++ ((lc :: lt) ++
        ((wc :: wt) ++ (dc :: dt)))))) =
        some ((toNatDigits (lc :: lt), toNatDigits ((dc :: dt).take 3)),
          List.drop ((dc :: dt).take 3).length (dc :: dt)) := by
      simp only [cutMatchAt, e1, e2, e3, e4, e5, e6, e7, e8, e9,
        hidxlen, hw1len, hw2len, hc1, hc2, hc3]
      simp
    simp only [parse_cuts, List.length_cons, parseCutsGo, hm, hrest]
  · rw [if_neg hcond]
    have hm : cutMatchAt ('<' :: (idx ++ '>' :: (w1 ++ ((lc :: lt) ++
        ((wc :: wt) ++ (dc :: dt)))))) = none := by
      by_cases h1 : 2 ≤ (lc :: lt).length ∧ (lc :: lt).length ≤ 5
      · have h2 : ¬ 2 ≤ (dc :: dt).length := fun h2 =>
          hcond ⟨h1.1, h1.2, h2⟩
        simp only [cutMatchAt, e1, e2, e3, e4, e5, e6, e7, e8, e9,
          hidxlen, hw1len, hw2len, h1.1, h1.2, h2]
        simp
      · simp only [cutMatchAt, e1, e2, e3, e4, e5, hidxlen, hw1len, h1]
        simp
    simp only [parse_cuts, List.length_cons, parseCutsGo, hm]
    exact parseCutsGo_no_lt _ _ hT

set_option maxRecDepth 8000 in
/-- Claim C10 counterexample: a cut line whose DN field has four
digits still produces a straight run, with the DN truncated to the
first three digits. -/
theorem C10_counterexample :
    parse_cuts (("<1> 1000 5000").toList) = [(1000, 500)] ∧
    ([((1000 : ℕ), (500 : ℕ))] : List (ℕ × ℕ)) ≠ [] := by
  exact ⟨rfl, by simp⟩

set_option maxRecDepth 8000 in
/-- Claim C10 witness: the amended statement applied to a concrete
six-digit length field, which yields no straight run. -/
theorem C10_witness :
    parse_cuts ('<' :: (("2").toList ++ '>' :: ((" ").toList ++
        (("999999").toList ++ ((" ").toList ++ ("70").toList))))) =
      if 2 ≤ (("999999").toList).length ∧ (("999999").toList).length ≤ 5 ∧
          2 ≤ (("70").toList).length then
        [(toNatDigits (("999999").toList),
          toNatDigits ((("70").toList).take 3))]
      else [] :=
  C10_amended (("2").toList) ((" ").toList) (("999999").toList)
    ((" ").toList) (("70").toList) (by decide) (by decide) (by decide)
    (by decide) (by decide) (by decide) (by decide) (by decide)
    (by decide) (by decide)
